import Mathlib

/-! Shallow embedding of the company-profile web scraper
(src/webScraper.py) and theorems checking the specification claims
against it.  Pure Python string and list operations are translated
directly; the behavior of the external collaborators named by the spec
(the HTTP client `requests`, the HTML parser BeautifulSoup, `urllib.parse`
and the `re` engine) is modelled from their documented semantics, at the
fidelity the pipeline exercises. -/

/-! ## Python string primitives -/

/-- Prefix test on character lists (`listStartsWith p s` is true when `p`
is an initial segment of `s`). -/
def listStartsWith : List Char → List Char → Bool
  | [], _ => true
  | _ :: _, [] => false
  | x :: xs, y :: ys => x == y && listStartsWith xs ys

/-- Case-insensitive prefix test on character lists. -/
def listStartsWithCI : List Char → List Char → Bool
  | [], _ => true
  | _ :: _, [] => false
  | x :: xs, y :: ys => x.toLower == y.toLower && listStartsWithCI xs ys

/-- Substring occurrence on character lists. -/
def listSubAux (ned : List Char) : List Char → Bool
  | [] => ned.isEmpty
  | c :: cs => listStartsWith ned (c :: cs) || listSubAux ned cs

/-- Python `needle in hay` on strings (substring containment). -/
def pyIn (needle hay : String) : Bool := listSubAux needle.toList hay.toList

/-- Python `s.strip()` on a character list (structural, so that closed
statements reduce in the kernel; the core `String.trim` does not). -/
def pyStripList (cs : List Char) : List Char :=
  ((cs.dropWhile Char.isWhitespace).reverse.dropWhile Char.isWhitespace).reverse

/-- Python `s.strip()`. -/
def pyStrip (s : String) : String := (pyStripList s.toList).asString

/-- Python `s.lower()` for the ASCII inputs the scraper handles. -/
def pyLower (s : String) : String := (s.toList.map Char.toLower).asString

/-- All non-overlapping occurrences of `pat` replaced by `rep`, left to
right; the fuel equals the input length. -/
def replaceAllAux (pat rep : List Char) : Nat → List Char → List Char
  | 0, cs => cs
  | _, [] => []
  | fuel + 1, c :: cs =>
    if listStartsWith pat (c :: cs) then
      rep ++ replaceAllAux pat rep fuel ((c :: cs).drop pat.length)
    else c :: replaceAllAux pat rep fuel cs

/-- Python `s.replace(pat, rep)` for a non-empty pattern. -/
def pyReplace (s pat rep : String) : String :=
  (replaceAllAux pat.toList rep.toList s.toList.length s.toList).asString

/-- Python `sep.join(parts)`. -/
def pyJoinWith (sep : String) : List String → String
  | [] => ""
  | [x] => x
  | x :: xs => x ++ sep ++ pyJoinWith sep xs

/-- Python slice `s[:n]`. -/
def pyTake (n : Nat) (s : String) : String := (s.toList.take n).asString

/-- Characters of `s` before the first occurrence of `sep` (all of `s`
when `sep` does not occur): models Python `s.split(sep)[0]`. -/
def beforeFirstAux (sep : List Char) : List Char → List Char
  | [] => []
  | c :: cs => if listStartsWith sep (c :: cs) then [] else c :: beforeFirstAux sep cs

/-- Python `s.split(sep)[0]` for a non-empty separator. -/
def pyBeforeFirst (sep s : String) : String := (beforeFirstAux sep.toList s.toList).asString

/-- Split a string at the first occurrence of `sep`, dropping the
separator; `none` when `sep` does not occur. -/
def splitFirstAux (sep : List Char) : List Char → Option (List Char × List Char)
  | [] => none
  | c :: cs =>
    if listStartsWith sep (c :: cs) then some ([], (c :: cs).drop sep.length)
    else match splitFirstAux sep cs with
      | none => none
      | some (b, r) => some (c :: b, r)

/-- `splitFirstStr sep s` is `some (before, after)` around the first
occurrence of `sep` in `s`. -/
def splitFirstStr (sep s : String) : Option (String × String) :=
  (splitFirstAux sep.toList s.toList).map (fun p => (p.1.asString, p.2.asString))

/-- Python regex `\w` (word character) for the ASCII inputs the scraper
handles. -/
def isWordChar (c : Char) : Bool := c.isAlphanum || c == '_'

/-! ## The parsed document tree

The HTML parser is an out-of-scope collaborator in the spec; a fetched
page is modelled as an already-parsed tree of element and text nodes.
`find_all` on the soup and on a tag both enumerate descendants in
document (preorder) order, as BeautifulSoup does. -/

inductive Node where
  | elem (tag : String) (attrs : List (String × String)) (children : List Node)
  | text (s : String)
deriving Repr, Inhabited

def Node.tag : Node → String
  | .elem t _ _ => t
  | .text _ => ""

def Node.attrsOf : Node → List (String × String)
  | .elem _ a _ => a
  | .text _ => []

/-- BeautifulSoup `tag.get(key)`: the attribute value when present. -/
def Node.getAttr (n : Node) (k : String) : Option String :=
  (n.attrsOf.find? (fun p => p.1 == k)).map (fun p => p.2)

/-- BeautifulSoup attribute-presence filter (e.g. `href=True`,
`class_=True`). -/
def Node.hasAttr (n : Node) (k : String) : Bool := (Node.getAttr n k).isSome

mutual

/-- The text-node strings below a node, in document order. -/
def Node.texts : Node → List String
  | .text s => [s]
  | .elem _ _ cs => Node.textsList cs

def Node.textsList : List Node → List String
  | [] => []
  | c :: cs => Node.texts c ++ Node.textsList cs

end

/-- BeautifulSoup `get_text()`: concatenation of all descendant strings. -/
def Node.getText (n : Node) : String := String.join (Node.texts n)

/-- BeautifulSoup `get_text(strip=True)`: each descendant string is
stripped before concatenation. -/
def Node.getTextStrip (n : Node) : String := String.join ((Node.texts n).map pyStrip)

mutual

/-- Element descendants of a node (excluding the node itself) in
document order. -/
def Node.descendants : Node → List Node
  | .text _ => []
  | .elem _ _ cs => Node.descList cs

def Node.descList : List Node → List Node
  | [] => []
  | c :: cs =>
    (match c with
     | .text _ => []
     | .elem t a cc => Node.elem t a cc :: Node.descendants (Node.elem t a cc)) ++ Node.descList cs

end

mutual

/-- Element descendants paired with their ancestor chain (nearest
ancestor first), in document order.  `anc` is the chain above the node
being visited. -/
def Node.elemsAnc (anc : List Node) : Node → List (List Node × Node)
  | .text _ => []
  | .elem t a cs => (anc, Node.elem t a cs) :: Node.elemsAncList (Node.elem t a cs :: anc) cs

def Node.elemsAncList (anc : List Node) : List Node → List (List Node × Node)
  | [] => []
  | c :: cs => Node.elemsAnc anc c ++ Node.elemsAncList anc cs

end

/-- `soup.find_all(...)` base enumeration: all element descendants of the
document root, with ancestor chains. -/
def docElems (root : Node) : List (List Node × Node) :=
  match root with
  | .elem _ _ cs => Node.elemsAncList [root] cs
  | .text _ => []

/-- All element descendants of the document root, without ancestors. -/
def docElemsPlain (root : Node) : List Node :=
  (docElems root).map (fun p => p.2)

/-- BeautifulSoup `find_parent([...])`: nearest ancestor whose tag is in
the set. -/
def findParentTag (anc : List Node) (ts : List String) : Option Node :=
  anc.find? (fun n => ts.contains n.tag)

mutual

/-- One node under BeautifulSoup `decompose()` of every element whose
tag is in `ts`: dropped entirely, or kept with its children cleaned. -/
def Node.removeTagsKeep (ts : List String) : Node → List Node
  | .text s => [Node.text s]
  | .elem t a cs =>
    if ts.contains t then [] else [Node.elem t a (Node.removeTagsList ts cs)]

def Node.removeTagsList (ts : List String) : List Node → List Node
  | [] => []
  | c :: cs => Node.removeTagsKeep ts c ++ Node.removeTagsList ts cs

end

/-- BeautifulSoup `decompose()` applied to every element of the document
whose tag is in `ts` (used to drop script/style/nav/footer/header
subtrees). -/
def Node.removeTags (ts : List String) : Node → Node
  | .text s => Node.text s
  | .elem t a cs => Node.elem t a (Node.removeTagsList ts cs)

/-! ## URL handling

`urllib.parse.urljoin` and `urlparse` are library collaborators; they
are modelled from their documented behavior for the URL shapes the
pipeline handles (absolute http(s) bases, and absolute, scheme-relative,
root-relative or plain relative hrefs, without dot segments). -/

/-- Split `scheme://rest` when the URL carries a scheme and authority. -/
def schemeSplit (u : String) : Option (String × String) := splitFirstStr "://" u

def netlocStop (c : Char) : Bool := c == '/' || c == '?' || c == '#'

def queryStop (c : Char) : Bool := c == '?' || c == '#'

/-- `urlparse(u).netloc` for the URL shapes above. -/
def urlparseNetloc (u : String) : String :=
  match schemeSplit u with
  | some (_, rest) => (rest.toList.takeWhile (fun c => !netlocStop c)).asString
  | none =>
    if listStartsWith "//".toList u.toList then
      ((u.toList.drop 2).takeWhile (fun c => !netlocStop c)).asString
    else ""

/-- `urlparse(u).path` for the URL shapes above. -/
def urlparsePath (u : String) : String :=
  match schemeSplit u with
  | some (_, rest) =>
    ((rest.toList.dropWhile (fun c => !netlocStop c)).takeWhile (fun c => !queryStop c)).asString
  | none =>
    if listStartsWith "//".toList u.toList then
      (((u.toList.drop 2).dropWhile (fun c => !netlocStop c)).takeWhile
        (fun c => !queryStop c)).asString
    else (u.toList.takeWhile (fun c => !queryStop c)).asString

/-- The directory part of a path: everything up to and including the last
slash (a single slash when the path has none). -/
def dirOf (p : String) : String :=
  let r := p.toList.reverse.dropWhile (fun c => !(c == '/'))
  if r.isEmpty then "/" else r.reverse.asString

/-- `urllib.parse.urljoin(base, href)` for the shapes above. -/
def urljoin (base href : String) : String :=
  if href == "" then base
  else if (schemeSplit href).isSome then href
  else
    match schemeSplit base with
    | none => href
    | some (sch, rest) =>
      if listStartsWith "//".toList href.toList then sch ++ ":" ++ href
      else
        let netloc := (rest.toList.takeWhile (fun c => !netlocStop c)).asString
        if listStartsWith "/".toList href.toList then sch ++ "://" ++ netloc ++ href
        else sch ++ "://" ++ netloc ++ dirOf (urlparsePath base) ++ href

/-! ## Profile record (webScraper.py lines 65-90) -/

structure AboutUs where
  description : Option String
  page_url : Option String
deriving Repr, DecidableEq

structure ContactInfo where
  contact_page : Option String
  email : Option String
  phone : Option String
  address : Option String
deriving Repr, DecidableEq

structure Careers where
  page_url : Option String
deriving Repr, DecidableEq

structure Policies where
  privacy_policy : Option String
  returns_policy : Option String
  terms_of_service : Option String
deriving Repr, DecidableEq

structure ProcessStep where
  step : Nat
  description : String
deriving Repr, DecidableEq

structure ArticleEntry where
  title : String
  url : Option String
deriving Repr, DecidableEq

structure Profile where
  company_name : Option String
  website : String
  about_us : AboutUs
  services : List String
  clients : List String
  process : List ProcessStep
  articles : List ArticleEntry
  contact_info : ContactInfo
  careers : Careers
  policies : Policies
deriving Repr, DecidableEq

/-- The profile as initialised before any extraction (lines 65-90). -/
def initProfile (url : String) : Profile :=
  { company_name := none
    website := url
    about_us := { description := none, page_url := none }
    services := []
    clients := []
    process := []
    articles := []
    contact_info := { contact_page := none, email := none, phone := none, address := none }
    careers := { page_url := none }
    policies := { privacy_policy := none, returns_policy := none, terms_of_service := none } }

/-! ## Fetching (requests, lines 92-109)

`requests.get` is modelled as a map from URL to either a fetch error
(connection failure or timeout, both `RequestException`s) or a response
carrying the HTTP status, the final URL after redirects, and the parsed
body.  `response.raise_for_status()` raises exactly for statuses in
[400, 600). -/

inductive FetchError where
  | connection
  | timedOut
deriving Repr, DecidableEq

structure Response where
  status : Nat
  final_url : String
  doc : Node

/-- `requests.Response.raise_for_status` raises an `HTTPError` (a
`RequestException`) exactly for client and server error statuses. -/
def raisesForStatus (s : Nat) : Bool := decide (400 ≤ s) && decide (s < 600)

/-! ## Link catalog (lines 143-160) -/

structure LinkEntry where
  url : String
  text : String
  href : String
deriving Repr, DecidableEq

/-- Lines 147-158: every anchor with an href attribute, resolved against
the final URL, kept when same-origin (or when the raw href has no
network location). -/
def collectLinks (doc : Node) (finalUrl : String) : List LinkEntry :=
  ((docElemsPlain doc).filter (fun n => n.tag == "a" && Node.hasAttr n "href")).filterMap
    (fun a =>
      let href := (Node.getAttr a "href").getD ""
      let full := urljoin finalUrl href
      if urlparseNetloc full == urlparseNetloc finalUrl || urlparseNetloc href == "" then
        some { url := full, text := pyLower (Node.getTextStrip a), href := pyLower href }
      else none)

/-! ## Company name (lines 123-141) -/

/-- `soup.title`: the first title element of the document. -/
def findTitleTag (doc : Node) : Option Node :=
  ((docElemsPlain doc).filter (fun n => n.tag == "title")).head?

/-- `soup.find("meta", property="og:site_name")`. -/
def findOgMeta (doc : Node) : Option Node :=
  ((docElemsPlain doc).filter
    (fun n => n.tag == "meta" && Node.getAttr n "property" == some "og:site_name")).head?

/-- `soup.find("img", alt=re.compile("logo", re.IGNORECASE))`: the first
image whose alt attribute contains "logo" case-insensitively. -/
def findLogoImg (doc : Node) : Option Node :=
  ((docElemsPlain doc).filter
    (fun n => n.tag == "img" && pyIn "logo" (pyLower ((Node.getAttr n "alt").getD "")))).head?

/-- Line 129: first segment of the title, split on the pipe, the hyphen
and the mojibake dash literal of the source, then stripped. -/
def titleFirstSegment (t : String) : String :=
  pyStrip (pyBeforeFirst "â€“" (pyBeforeFirst "-" (pyBeforeFirst "|" t)))

/-- Lines 127-141: title first, then og:site_name when its content
attribute is truthy, then the stripped alt of the first logo image when
truthy; each present source overwrites the previous value. -/
def extractCompanyName (doc : Node) : Option String :=
  let fromTitle : Option String :=
    match findTitleTag doc with
    | some t => some (titleFirstSegment (pyStrip (Node.getText t)))
    | none => none
  let afterOg : Option String :=
    match findOgMeta doc with
    | some m =>
      match Node.getAttr m "content" with
      | some c => if c = "" then fromTitle else some (pyStrip c)
      | none => fromTitle
    | none => fromTitle
  match findLogoImg doc with
  | some im =>
    match Node.getAttr im "alt" with
    | some al =>
      if al = "" then afterOg
      else some (pyStrip (pyReplace (pyReplace al "logo" "") "Logo" ""))
    | none => afterOg
  | none => afterOg

/-! ## Guarded append

The source repeatedly guards `list.append(x)` with `x not in list`; this
is that idiom. -/

def pushNew {α : Type} [DecidableEq α] (xs : List α) (x : α) : List α :=
  if x ∈ xs then xs else xs ++ [x]

/-! ## The service-sentence pattern (line 258)

`re.findall(r"We (offer|provide|deliver|specialize in) ([^.!?]{10,100})",
body_text, re.IGNORECASE)`, keeping the second capture group.  The
scanner mirrors the engine: alternatives are tried in order with
backtracking, the bounded class run is greedy, matches are leftmost and
non-overlapping. -/

def svcVerbs : List String := ["offer", "provide", "deliver", "specialize in"]

def notSentEnd (c : Char) : Bool := !(c == '.') && !(c == '!') && !(c == '?')

/-- Match `" ([^.!?]{10,100})"` right after a verb; returns the captured
group and the rest of the input. -/
def svcAfterVerb : List Char → Option (String × List Char)
  | ' ' :: cs2 =>
    let run := cs2.takeWhile notSentEnd
    if run.length < 10 then none
    else
      let g := run.take 100
      some (g.asString, cs2.drop g.length)
  | _ => none

/-- Try the verb alternatives in pattern order, backtracking into the
rest of the pattern. -/
def svcTryVerbs : List String → List Char → Option (String × List Char)
  | [], _ => none
  | v :: vs, cs =>
    if listStartsWithCI v.toList cs then
      match svcAfterVerb (cs.drop v.length) with
      | some r => some r
      | none => svcTryVerbs vs cs
    else svcTryVerbs vs cs

/-- Attempt the whole pattern at the start of `cs`. -/
def svcMatchAt (cs : List Char) : Option (String × List Char) :=
  if listStartsWithCI "we ".toList cs then svcTryVerbs svcVerbs (cs.drop 3)
  else none

/-- Leftmost non-overlapping scan; the fuel equals the input length, and
every successful match consumes at least one character, so it never runs
out before the input does. -/
def svcScan : Nat → List Char → List String
  | 0, _ => []
  | _, [] => []
  | fuel + 1, c :: cs =>
    match svcMatchAt (c :: cs) with
    | some (g, rest) => g :: svcScan fuel rest
    | none => svcScan fuel cs

def svcMatches (t : String) : List String := svcScan t.length t.toList

/-! ## The email pattern (line 387)

`r"\b[A-Za-z0-9._%+-]+@[A-Za-z0-9.-]+\.[A-Z|a-z]{2,}\b"` with
`re.findall`.  The greedy domain run backtracks to leave a dot and a
final boundary-terminated run of at least two letters (the class
`[A-Z|a-z]` of the source also admits the pipe character). -/

def isLocalChar (c : Char) : Bool :=
  c.isAlphanum || c == '.' || c == '_' || c == '%' || c == '+' || c == '-'

def isDomChar (c : Char) : Bool := c.isAlphanum || c == '.' || c == '-'

def isTldChar (c : Char) : Bool := c.isAlpha || c == '|'

/-- The trailing `\b`: a word-status transition after the last matched
character (or a word character at the end of input). -/
def tldBoundaryOk (tld : List Char) (next : Option Char) : Bool :=
  match tld.getLast? with
  | none => false
  | some lastc =>
    match next with
    | none => isWordChar lastc
    | some nx => isWordChar lastc != isWordChar nx

/-- Backtrack the final-run length from the greedy maximum down to 2. -/
def tldBacktrack (run area : List Char) : Nat → Option (List Char × List Char)
  | 0 => none
  | t + 1 =>
    if t + 1 < 2 then none
    else if run.length < t + 1 then tldBacktrack run area t
    else
      let tld := run.take (t + 1)
      let rest := area.drop (t + 1)
      if tldBoundaryOk tld rest.head? then some (tld, rest) else tldBacktrack run area t

/-- Backtrack the domain-run length `d` downward; the dot the pattern
requires must be the character right after the consumed part. -/
def domBacktrack (dom afterDom : List Char) : Nat → Option (List Char × List Char × List Char)
  | 0 => none
  | dm1 + 1 =>
    (if (dom.drop (dm1 + 1)).head? == some '.' then
      let area := dom.drop (dm1 + 2) ++ afterDom
      let run := area.takeWhile isTldChar
      match tldBacktrack run area run.length with
      | some (tld, rest) => some (dom.take (dm1 + 1), tld, rest)
      | none => none
    else none).orElse (fun _ => domBacktrack dom afterDom dm1)

/-- Attempt the email pattern at the start of `cs`; `prevWord` is the
word-status of the preceding character, for the leading `\b`. -/
def emailMatchAt (prevWord : Bool) (cs : List Char) : Option (List Char × List Char) :=
  match cs with
  | [] => none
  | c :: _ =>
    if isLocalChar c && (isWordChar c != prevWord) then
      let loc := cs.takeWhile isLocalChar
      match cs.drop loc.length with
      | '@' :: rest2 =>
        let dom := rest2.takeWhile isDomChar
        if dom.isEmpty then none
        else
          match domBacktrack dom (rest2.drop dom.length) dom.length with
          | some (dpart, tld, rest) => some (loc ++ '@' :: (dpart ++ '.' :: tld), rest)
          | none => none
      | _ => none
    else none

def emailScan : Nat → Bool → List Char → List String
  | 0, _, _ => []
  | _, _, [] => []
  | fuel + 1, prevWord, c :: cs =>
    match emailMatchAt prevWord (c :: cs) with
    | some (m, rest) => m.asString :: emailScan fuel (isWordChar (m.getLastD c)) rest
    | none => emailScan fuel (isWordChar c) cs

/-- `re.findall` of the email pattern over the page text. -/
def findEmails (t : String) : List String := emailScan t.length false t.toList

/-- Line 390: drop emails containing a placeholder domain as a
substring (the source checks `x in e.lower()`, not the domain part). -/
def placeholderDomains : List String := ["example.com", "domain.com", "email.com"]

def filteredEmails (t : String) : List String :=
  (findEmails t).filter (fun e => !(placeholderDomains.any (fun x => pyIn x (pyLower e))))

/-- Lines 388-392: the first surviving email, when any. -/
def extractEmail (t : String) : Option String := (filteredEmails t).head?

/-- The domain of an email (after the last at-sign) — used only to state
what the specification asserts about the blocklist. -/
def emailDomain (e : String) : String :=
  ((e.toList.reverse.takeWhile (fun c => !(c == '@'))).reverse).asString

/-! ## The phone pattern (line 396)

`r"(?:\+?1[-.\s]?)?\(?([0-9]{3})\)?[-.\s]?([0-9]{3})[-.\s]?([0-9]{4})"`
with `re.findall`, which yields the three capture groups.  Optional
pieces are greedy with backtracking through the continuation. -/

def isSepChar (c : Char) : Bool := c == '-' || c == '.' || c.isWhitespace

/-- A greedy optional single character: try consuming it, fall back to
not consuming it. -/
def optCh {α : Type} (p : Char → Bool) (k : List Char → Option α) : List Char → Option α
  | [] => k []
  | c :: cs => if p c then (k cs).orElse (fun _ => k (c :: cs)) else k (c :: cs)

/-- Exactly `n` digits. -/
def takeDigits : Nat → List Char → Option (List Char × List Char)
  | 0, cs => some ([], cs)
  | _ + 1, [] => none
  | n + 1, c :: cs =>
    if c.isDigit then
      match takeDigits n cs with
      | some (ds, rest) => some (c :: ds, rest)
      | none => none
    else none

def phoneCore (cs : List Char) : Option ((String × String × String) × List Char) :=
  optCh (fun c => c == '(')
    (fun l1 =>
      match takeDigits 3 l1 with
      | none => none
      | some (a, l2) =>
        optCh (fun c => c == ')')
          (fun l3 =>
            optCh isSepChar
              (fun l4 =>
                match takeDigits 3 l4 with
                | none => none
                | some (b, l5) =>
                  optCh isSepChar
                    (fun l6 =>
                      match takeDigits 4 l6 with
                      | none => none
                      | some (d, l7) => some ((a.asString, b.asString, d.asString), l7))
                    l5)
              l3)
          l2)
    cs

/-- The optional `(?:\+?1[-.\s]?)?` lead-in, preferred when it matches. -/
def phoneAt (cs : List Char) : Option ((String × String × String) × List Char) :=
  (optCh (fun c => c == '+')
    (fun l1 =>
      match l1 with
      | '1' :: l2 => optCh isSepChar phoneCore l2
      | _ => none)
    cs).orElse (fun _ => phoneCore cs)

def phoneScan : Nat → List Char → List (String × String × String)
  | 0, _ => []
  | _, [] => []
  | fuel + 1, c :: cs =>
    match phoneAt (c :: cs) with
    | some (g, rest) => g :: phoneScan fuel rest
    | none => phoneScan fuel cs

def findPhones (t : String) : List (String × String × String) := phoneScan t.length t.toList

/-- Lines 397-400: first match reformatted as ddd-ddd-dddd. -/
def extractPhone (t : String) : Option String :=
  match findPhones t with
  | [] => none
  | (a, b, c) :: _ => some (a ++ "-" ++ b ++ "-" ++ c)

/-! ## `re.search(r"\b\d+\b", ...)` (line 334) -/

mutual

/-- Scan for a digit run bounded by word-status transitions; `prevWord`
is the word-status of the previous character. -/
def digitScanAux : Bool → List Char → Bool
  | _, [] => false
  | prevWord, c :: cs =>
    if c.isDigit && !prevWord then digitRunScan cs
    else digitScanAux (isWordChar c) cs

/-- Inside a digit run: succeed at a non-word follower or end of input,
else resume scanning. -/
def digitRunScan : List Char → Bool
  | [] => true
  | c :: cs =>
    if c.isDigit then digitRunScan cs
    else if !(isWordChar c) then true
    else digitScanAux true cs

end

def hasDigitToken (t : String) : Bool := digitScanAux false t.toList

/-! ## `re.sub(r"\s+(logo|icon|image)$", "", name, flags=re.IGNORECASE)`
(line 289) -/

def logoSuffixWords : List String := ["logo", "icon", "image"]

def stripTrailingLogoWord (s : String) : String :=
  let cs := s.toList
  let lowerRev := (cs.map Char.toLower).reverse
  match logoSuffixWords.find? (fun w => listStartsWith w.toList.reverse lowerRev) with
  | some w =>
    let rest := cs.take (cs.length - w.length)
    match rest.reverse with
    | [] => s
    | c :: _ =>
      if c.isWhitespace then (rest.reverse.dropWhile Char.isWhitespace).reverse.asString
      else s
  | none => s

/-! ## Navigation links (lines 162-217) -/

/-- The first-match-wins scan shared by the contact, careers, privacy,
returns and terms categories (a for-loop with a break in the source). -/
def firstLinkWhere (p : LinkEntry → Bool) : List LinkEntry → Option String
  | [] => none
  | l :: ls => if p l then some l.url else firstLinkWhere p ls

/-- Line 167: a link is about-like when href or text contains "about". -/
def aboutPred (l : LinkEntry) : Bool := pyIn "about" l.href || pyIn "about" l.text

/-- One iteration of the About loop (lines 166-169): assign when nothing
is stored yet, or when the candidate's raw href is shorter than the path
of the stored absolute URL. -/
def aboutStep (acc : Option String) (l : LinkEntry) : Option String :=
  if aboutPred l then
    match acc with
    | none => some l.url
    | some cur => if l.href.length < (urlparsePath cur).length then some l.url else some cur
  else acc

def findAboutPage (links : List LinkEntry) : Option String :=
  links.foldl aboutStep none

def contactPred (l : LinkEntry) : Bool := pyIn "contact" l.href || pyIn "contact" l.text

def careersWords : List String := ["career", "job", "hiring", "join"]

def careersPred (l : LinkEntry) : Bool :=
  careersWords.any (fun w => pyIn w l.href || pyIn w l.text)

def privacyPred (l : LinkEntry) : Bool := pyIn "privacy" l.href || pyIn "privacy" l.text

/-- Line 203: the source checks "return" and "refund" in the href but
only "return" in the visible text. -/
def returnsPred (l : LinkEntry) : Bool :=
  pyIn "return" l.href || pyIn "refund" l.href || pyIn "return" l.text

def termsWords : List String := ["term", "condition", "tos"]

def termsPred (l : LinkEntry) : Bool :=
  termsWords.any (fun w => pyIn w l.href || pyIn w l.text)

def findContactPage (links : List LinkEntry) : Option String := firstLinkWhere contactPred links

def findCareersPage (links : List LinkEntry) : Option String := firstLinkWhere careersPred links

def findPrivacyPage (links : List LinkEntry) : Option String := firstLinkWhere privacyPred links

def findReturnsPolicy (links : List LinkEntry) : Option String := firstLinkWhere returnsPred links

def findTermsPage (links : List LinkEntry) : Option String := firstLinkWhere termsPred links

/-! ## Services (lines 219-265) -/

def hTags : List String := ["h1", "h2", "h3", "h4", "h5"]

def containerTags : List String := ["div", "section", "article", "main"]

/-- Lowercased stripped text of a heading (lines 226, 274, 310). -/
def headingText (h : Node) : String := pyLower (Node.getTextStrip h)

def serviceKeywords : List String :=
  ["service", "solution", "offer", "product", "expertise", "specialization"]

/-- Lines 236-240: a list item of a list inside the section container. -/
def serviceListStep (acc : List String) (li : Node) : List String :=
  if Node.getTextStrip li ≠ "" ∧ 3 < (Node.getTextStrip li).length ∧
      (Node.getTextStrip li).length < 200 then
    pushNew acc (Node.getTextStrip li)
  else acc

/-- Lines 244-254: a class-bearing div card with an inner h3-h5. -/
def serviceCardStep (acc : List String) (dv : Node) : List String :=
  if 10 < (Node.getTextStrip dv).length ∧ (Node.getTextStrip dv).length < 300 then
    match ((Node.descendants dv).filter
        (fun n => ["h3", "h4", "h5"].contains n.tag)).head? with
    | some ih =>
      if 3 < (Node.getTextStrip ih).length then pushNew acc (Node.getTextStrip ih) else acc
    | none => acc
  else acc

/-- The two scans over the container of one matching heading: the list
scan (lines 235-241) feeds the div-card scan (lines 244-254). -/
def serviceContainerStep (acc : List String) (p : List Node × Node) : List String :=
  match findParentTag p.1 containerTags with
  | some parent =>
    (((Node.descendants parent).filter
        (fun n => n.tag == "div" && Node.hasAttr n "class")).take 20).foldl
      serviceCardStep
      ((((Node.descendants parent).filter
          (fun n => n.tag == "ul" || n.tag == "ol")).take 5).foldl
        (fun a ul => ((Node.descendants ul).filter (fun n => n.tag == "li")).foldl
          serviceListStep a)
        acc)
  | none => acc

def serviceHeadingStep (acc : List String) (p : List Node × Node) : List String :=
  if serviceKeywords.any (fun k => pyIn k (headingText p.2)) then serviceContainerStep acc p
  else acc

/-- Lines 225-263: method 1 (heading-anchored) then method 2 (sentence
pattern over the page text). -/
def extractServices (doc : Node) : List String :=
  (svcMatches (Node.getText doc)).foldl
    (fun a m => if 10 < (pyStrip m).length then pushNew a (pyStrip m) else a)
    (((docElems doc).filter (fun p => hTags.contains p.2.tag)).foldl serviceHeadingStep [])

/-! ## Clients (lines 267-302) -/

def clientKeywords : List String :=
  ["client", "customer", "partner", "trust", "work with", "portfolio"]

/-- Line 286: `alt or title`, each stripped, alt preferred when truthy. -/
def clientName (im : Node) : String :=
  if pyStrip ((Node.getAttr im "alt").getD "") ≠ "" then
    pyStrip ((Node.getAttr im "alt").getD "")
  else pyStrip ((Node.getAttr im "title").getD "")

/-- Lines 282-291: image alt-or-title, suffix-stripped. -/
def clientImgStep (acc : List String) (im : Node) : List String :=
  if clientName im ≠ "" ∧ 1 < (clientName im).length ∧ (clientName im).length < 100 then
    pushNew acc (stripTrailingLogoWord (clientName im))
  else acc

/-- Lines 295-299: short text mentions. -/
def clientTextStep (acc : List String) (el : Node) : List String :=
  if 2 < (Node.getTextStrip el).length ∧ (Node.getTextStrip el).length < 50 then
    pushNew acc (Node.getTextStrip el)
  else acc

def clientContainerStep (acc : List String) (p : List Node × Node) : List String :=
  match findParentTag p.1 containerTags with
  | some parent =>
    ((Node.descendants parent).filter (fun n => ["li", "span", "p", "div"].contains n.tag)).foldl
      clientTextStep
      (((Node.descendants parent).filter (fun n => n.tag == "img")).foldl clientImgStep acc)
  | none => acc

def clientHeadingStep (acc : List String) (p : List Node × Node) : List String :=
  if clientKeywords.any (fun k => pyIn k (headingText p.2)) then clientContainerStep acc p
  else acc

def extractClients (doc : Node) : List String :=
  ((docElems doc).filter (fun p => hTags.contains p.2.tag)).foldl clientHeadingStep []

/-! ## Process (lines 304-341) -/

def processKeywords : List String :=
  ["process", "methodology", "approach", "how we", "workflow", "step"]

/-- Lines 319-325: one enumerated list item (the index counts every
item, appended or not; no de-duplication for process steps). -/
def processItemStep (a2 : List ProcessStep) (q : Nat × Node) : List ProcessStep :=
  if Node.getTextStrip q.2 ≠ "" ∧ 5 < (Node.getTextStrip q.2).length then
    a2 ++ [⟨q.1 + 1, Node.getTextStrip q.2⟩]
  else a2

/-- Lines 318-325: every ordered list in the container. -/
def processPartA (parent : Node) (acc : List ProcessStep) : List ProcessStep :=
  ((Node.descendants parent).filter (fun n => n.tag == "ol")).foldl
    (fun a ol => (((Node.descendants ol).filter (fun n => n.tag == "li")).enum).foldl
      processItemStep a)
    acc

/-- Line 329: up to 10 class-bearing div/article elements. -/
def stepDivs (parent : Node) : List Node :=
  ((Node.descendants parent).filter
    (fun n => (n.tag == "div" || n.tag == "article") && Node.hasAttr n "class")).take 10

/-- Lines 331-334: text length in (10,500) and a digit token in the
first 50 characters or a nested h3-h5. -/
def stepDivQualifies (dv : Node) : Bool :=
  decide (10 < (Node.getTextStrip dv).length) && decide ((Node.getTextStrip dv).length < 500) &&
    (hasDigitToken (pyTake 50 (Node.getTextStrip dv)) ||
      ((Node.descendants dv).filter (fun n => ["h3", "h4", "h5"].contains n.tag)).head?.isSome)

/-- One enumerated step div: appended with number `base + index` when it
qualifies, description truncated to 300 characters (lines 330-338). -/
def processDivStep (base : Nat) (a : List ProcessStep) (q : Nat × Node) : List ProcessStep :=
  if stepDivQualifies q.2 then a ++ [⟨base + q.1, pyTake 300 (Node.getTextStrip q.2)⟩] else a

/-- Lines 329-339: numbering starts at the process count before this
loop plus one and advances for every enumerated div, appended or not. -/
def processPartB (parent : Node) (acc : List ProcessStep) : List ProcessStep :=
  ((stepDivs parent).enum).foldl (processDivStep (acc.length + 1)) acc

def processContainerStep (acc : List ProcessStep) (p : List Node × Node) : List ProcessStep :=
  match findParentTag p.1 containerTags with
  | some parent => processPartB parent (processPartA parent acc)
  | none => acc

def processHeadingStep (acc : List ProcessStep) (p : List Node × Node) : List ProcessStep :=
  if processKeywords.any (fun k => pyIn k (headingText p.2)) then processContainerStep acc p
  else acc

def extractProcess (doc : Node) : List ProcessStep :=
  ((docElems doc).filter (fun p => hTags.contains p.2.tag)).foldl processHeadingStep []

/-! ## Articles (lines 343-379) -/

def blogKeywords : List String := ["blog", "article", "news", "insight", "resource", "post"]

/-- Lines 347-351: candidate blog URLs from the primary link catalog. -/
def blogCandidates (links : List LinkEntry) : List String :=
  (links.filter (fun l => blogKeywords.any (fun k => pyIn k l.href || pyIn k l.text))).map
    (fun l => l.url)

/-- Lines 361-374: one class-bearing article/div of the blog page. -/
def articleStep (blogUrl : String) (acc : List ArticleEntry) (art : Node) : List ArticleEntry :=
  match ((Node.descendants art).filter
      (fun n => ["h1", "h2", "h3", "h4", "a"].contains n.tag)).head? with
  | none => acc
  | some te =>
    if Node.getTextStrip te ≠ "" ∧ 5 < (Node.getTextStrip te).length ∧
        (Node.getTextStrip te).length < 200 then
      pushNew acc
        { title := Node.getTextStrip te
          url :=
            match (if te.tag == "a" then Node.getAttr te "href" else none) with
            | some h => if h ≠ "" then some (urljoin blogUrl h) else none
            | none => none }
    else acc

/-- Lines 361-374 over the fetched blog page. -/
def extractArticles (doc : Node) (blogUrl : String) : List ArticleEntry :=
  (((docElemsPlain doc).filter
      (fun n => (n.tag == "article" || n.tag == "div") && Node.hasAttr n "class")).take 15).foldl
    (articleStep blogUrl) []

/-! ## About-page description (lines 403-427) -/

/-- Lines 410-424: strip script/style/nav/footer/header, then join up to
three paragraphs longer than 50 characters. -/
def extractAboutDescription (doc : Node) : Option String :=
  let cleaned := Node.removeTags ["script", "style", "nav", "footer", "header"] doc
  let paras :=
    ((((docElemsPlain cleaned).filter (fun n => n.tag == "p")).map Node.getTextStrip).filter
      (fun t => 50 < t.length)).take 3
  if paras.isEmpty then none else some (pyJoinWith " " paras)

/-! ## The pipeline (lines 61-429) -/

/-- Everything after a successful primary fetch.  The secondary fetches
(lines 355-377 and 404-427) are wrapped in try/except blocks that catch
fetch errors but never inspect the HTTP status of the secondary
response. -/
def runPipeline (url : String) (net : String → Except FetchError Response) (doc : Node)
    (finalUrl : String) : Profile :=
  let links := collectLinks doc finalUrl
  let aboutUrl := findAboutPage links
  { company_name := extractCompanyName doc
    website := url
    about_us :=
      { description :=
          match aboutUrl with
          | none => none
          | some au =>
            match net au with
            | Except.error _ => none
            | Except.ok ar => extractAboutDescription ar.doc
        page_url := aboutUrl }
    services := extractServices doc
    clients := extractClients doc
    process := extractProcess doc
    articles :=
      match blogCandidates links with
      | [] => []
      | b :: _ =>
        match net b with
        | Except.error _ => []
        | Except.ok br => extractArticles br.doc b
    contact_info :=
      { contact_page := findContactPage links
        email := extractEmail (Node.getText doc)
        phone := extractPhone (Node.getText doc)
        address := none }
    careers := { page_url := findCareersPage links }
    policies :=
      { privacy_policy := findPrivacyPage links
        returns_policy := findReturnsPolicy links
        terms_of_service := findTermsPage links } }

/-- Lines 61-429: the entry point.  A primary fetch error, or a primary
status for which `raise_for_status` raises, is caught by the top
try/except and returns the untouched initial profile. -/
def scrape_company_profile (url : String) (net : String → Except FetchError Response) : Profile :=
  match net url with
  | Except.error _ => initProfile url
  | Except.ok r =>
    if raisesForStatus r.status then initProfile url
    else runPipeline url net r.doc r.final_url

/-! ## Specification-side comparison for the About resolver

The spec says the About resolver keeps the candidate with the shortest
href path.  This fold keeps the first candidate whose href is strictly
shorter than everything before it, comparing href against href — the
reading of §4.4 under which candidates and the stored entry are measured
the same way. -/

def shortStep (acc : Option LinkEntry) (l : LinkEntry) : Option LinkEntry :=
  match acc with
  | none => some l
  | some c => if l.href.length < c.href.length then some l else some c

def firstShortestHref (ls : List LinkEntry) : Option LinkEntry := ls.foldl shortStep none

/-! ## Concrete fixtures used by witnesses and counterexamples -/

/-- A primary page holding only a title. -/
def titleDoc : Node :=
  Node.elem "[document]" []
    [Node.elem "html" []
      [Node.elem "head" [] [Node.elem "title" [] [Node.text "Acme"]]]]

/-- A fetcher whose primary response has HTTP status 304 (not a 2xx
status, yet below the 400 threshold of `raise_for_status`). -/
def net304 : String → Except FetchError Response :=
  fun _ => Except.ok { status := 304, final_url := "https://acme.test/", doc := titleDoc }

/-- Two same-origin about-like anchors: a root-relative one with a long
path, then an absolute one with the short path `/about`. -/
def aboutDocC4 : Node :=
  Node.elem "[document]" []
    [Node.elem "a" [("href", "/about-us/x")] [Node.text "our story"],
     Node.elem "a" [("href", "https://x.test/about")] [Node.text "y"]]

/-- The specification's own About example: hrefs `/about-us/our-story`
then `/about`, both root-relative. -/
def aboutCat : List LinkEntry :=
  [{ url := "https://x.test/about-us/our-story", text := "our story",
     href := "/about-us/our-story" },
   { url := "https://x.test/about", text := "about", href := "/about" }]

/-- A document with a title and a logo image whose alt is exactly
"logo", which strips to the empty string. -/
def logoDocC5 : Node :=
  Node.elem "[document]" []
    [Node.elem "title" [] [Node.text "Acme"],
     Node.elem "img" [("alt", "logo")] []]

/-- A document with the spec's example title and an og:site_name meta
tag, and no logo image. -/
def ogMetaNode : Node :=
  Node.elem "meta" [("property", "og:site_name"), ("content", "Acme")] []

def ogDoc : Node :=
  Node.elem "[document]" []
    [Node.elem "title" [] [Node.text "Acme Corp | Solutions"], ogMetaNode]

/-- A link whose visible text is "refund" and whose href mentions
neither returns keyword. -/
def refundLink : LinkEntry := { url := "https://x.test/p", text := "refund", href := "/p" }

/-- A neutral link followed by a link with href `/returns`. -/
def plainLink : LinkEntry := { url := "https://x.test/home", text := "home", href := "/home" }

def returnsLink : LinkEntry :=
  { url := "https://x.test/returns", text := "policy", href := "/returns" }

/-- A primary page with an About link and a Blog link. -/
def mainDocC7 : Node :=
  Node.elem "[document]" []
    [Node.elem "a" [("href", "/about")] [Node.text "About"],
     Node.elem "a" [("href", "/blog")] [Node.text "Blog"]]

/-- An about page whose body is one long paragraph (an error page would
look the same to the scraper). -/
def aboutDoc404 : Node :=
  Node.elem "[document]" []
    [Node.elem "p" []
      [Node.text
        "Acme builds reliable industrial automation platforms for factories worldwide."]]

/-- A fetcher: primary page succeeds with status 200; the about page
responds with HTTP status 404 and an HTML body; everything else times
out. -/
def netC7 : String → Except FetchError Response := fun u =>
  if u == "https://acme.test/" then
    Except.ok { status := 200, final_url := "https://acme.test/", doc := mainDocC7 }
  else if u == "https://acme.test/about" then
    Except.ok { status := 404, final_url := "https://acme.test/about", doc := aboutDoc404 }
  else Except.error FetchError.timedOut

/-- A fetcher where only the primary page succeeds. -/
def netW7 : String → Except FetchError Response := fun u =>
  if u == "https://acme.test/" then
    Except.ok { status := 200, final_url := "https://acme.test/", doc := mainDocC7 }
  else Except.error FetchError.timedOut

/-- A process section: heading plus one ordered list with three items,
inside a container div with no class-bearing divs. -/
def procOl : Node :=
  Node.elem "ol" []
    [Node.elem "li" [] [Node.text "Discover needs"],
     Node.elem "li" [] [Node.text "Design system"],
     Node.elem "li" [] [Node.text "Deliver product"]]

def procHeading : Node := Node.elem "h2" [] [Node.text "Our Process"]

def procContainer : Node := Node.elem "div" [] [procHeading, procOl]

def procDoc : Node := Node.elem "[document]" [] [procContainer]

/-! ## Helper lemmas -/

theorem pushNew_nodup {α : Type} [DecidableEq α] (xs : List α) (x : α) (h : xs.Nodup) :
    (pushNew xs x).Nodup := by
  unfold pushNew
  split
  · exact h
  · rename_i hx
    simp [List.nodup_append, h, hx]

theorem foldl_nodup {α β : Type} (f : List β → α → List β)
    (hf : ∀ acc a, acc.Nodup → (f acc a).Nodup) :
    ∀ (l : List α) (acc : List β), acc.Nodup → (l.foldl f acc).Nodup := by
  intro l
  induction l with
  | nil => intro acc h; simpa using h
  | cons x xs ih => intro acc h; exact ih (f acc x) (hf acc x h)

theorem head?_filter_eq_find? {α : Type} (p : α → Bool) :
    ∀ l : List α, (l.filter p).head? = l.find? p := by
  intro l
  induction l with
  | nil => rfl
  | cons x xs ih =>
    by_cases hx : p x = true
    · simp [List.filter_cons, List.find?, hx]
    · simp only [Bool.not_eq_true] at hx
      simp [List.filter_cons, List.find?, hx, ih]

/-! ## Claim C10 -/

/-- C10: on every run, the returned profile's contact_info record has an
address field and it is always null: no extraction step populates it. -/
theorem contact_address_always_none (url : String)
    (net : String → Except FetchError Response) :
    (scrape_company_profile url net).contact_info.address = none := by
  unfold scrape_company_profile
  split
  · rfl
  · split
    · rfl
    · rfl

/-! ## Claim C3 -/

/-- C3: for a fixed set of fetched page contents, the profile is a pure
function of that content — two runs over extensionally equal fetchers
return equal profiles (the embedding of the pipeline is a total pure
function, so repeated runs cannot differ). -/
theorem scrape_deterministic (url : String)
    (net1 net2 : String → Except FetchError Response)
    (h : ∀ u, net1 u = net2 u) :
    scrape_company_profile url net1 = scrape_company_profile url net2 := by
  rw [funext h]

theorem scrape_deterministic_witness :
    scrape_company_profile "https://acme.test/" net304 =
      scrape_company_profile "https://acme.test/" net304 :=
  scrape_deterministic "https://acme.test/" net304 net304 (fun _ => rfl)

/-! ## Claim C1 -/

/-- C1 (amended): when the primary fetch raises a network or timeout
error, or returns a status in [400, 600) (for which raise_for_status
raises), the run returns the profile with every field at its not-found
default except website, which holds the requested URL, and no exception
escapes.  Statuses outside 2xx but below 400 do not take this path. -/
theorem primary_fetch_failure_yields_default_profile (url : String)
    (net : String → Except FetchError Response)
    (h : (∃ e, net url = Except.error e) ∨
      (∃ r, net url = Except.ok r ∧ 400 ≤ r.status ∧ r.status < 600)) :
    scrape_company_profile url net =
      { company_name := none
        website := url
        about_us := { description := none, page_url := none }
        services := []
        clients := []
        process := []
        articles := []
        contact_info := { contact_page := none, email := none, phone := none, address := none }
        careers := { page_url := none }
        policies := { privacy_policy := none, returns_policy := none,
                      terms_of_service := none } } := by
  unfold scrape_company_profile
  rcases h with ⟨e, he⟩ | ⟨r, hr, h4, h6⟩
  · rw [he]
    rfl
  · rw [hr]
    have hrs : raisesForStatus r.status = true := by simp [raisesForStatus, h4, h6]
    show (if raisesForStatus r.status = true then initProfile url
      else runPipeline url net r.doc r.final_url) = _
    rw [if_pos hrs]
    rfl

theorem primary_fetch_failure_yields_default_profile_witness :
    scrape_company_profile "https://acme.test/" (fun _ => Except.error FetchError.timedOut) =
      { company_name := none
        website := "https://acme.test/"
        about_us := { description := none, page_url := none }
        services := []
        clients := []
        process := []
        articles := []
        contact_info := { contact_page := none, email := none, phone := none, address := none }
        careers := { page_url := none }
        policies := { privacy_policy := none, returns_policy := none,
                      terms_of_service := none } } :=
  primary_fetch_failure_yields_default_profile "https://acme.test/" _
    (Or.inl ⟨FetchError.timedOut, rfl⟩)

/-- C1 counterexample: a final status of 304 is not a 2xx status, but
`raise_for_status` does not raise below 400, so the pipeline runs on the
response body and fills company_name instead of returning the all-default
profile the claim requires for every non-2xx status. -/
theorem C1_counterexample :
    net304 "https://acme.test/" =
      Except.ok { status := 304, final_url := "https://acme.test/", doc := titleDoc } ∧
    (scrape_company_profile "https://acme.test/" net304).company_name = some "Acme" :=
  ⟨rfl, by decide⟩

/-! ## Claim C5 -/

/-- C5 (amended): resolution is last-match-wins in the order title,
og:site_name, logo alt, and a missing source is skipped — but only
missing sources are skipped: a present og:site_name with a truthy
content attribute overwrites the title-derived name with its stripped
content even when that strips to the empty string.  With no logo image
present, the og content decides the name. -/
theorem og_site_name_overrides_title (doc : Node) (m : Node) (c : String)
    (hm : findOgMeta doc = some m) (hc : Node.getAttr m "content" = some c)
    (hne : c ≠ "") (hlogo : findLogoImg doc = none) :
    extractCompanyName doc = some (pyStrip c) := by
  simp only [extractCompanyName, hlogo, hm, hc]
  rw [if_neg hne]

theorem og_site_name_overrides_title_witness :
    extractCompanyName ogDoc = some "Acme" := by
  have h := og_site_name_overrides_title ogDoc ogMetaNode "Acme" rfl rfl (by decide) rfl
  exact h.trans (by decide)

/-- C5 counterexample: the document has a title whose first segment is
"Acme" and a logo image whose alt is exactly "logo"; stripping the
logo-word leaves the empty string, which nevertheless overwrites the
name — refuting that only non-empty results ever overwrite. -/
theorem C5_counterexample :
    findTitleTag logoDocC5 = some (Node.elem "title" [] [Node.text "Acme"]) ∧
    titleFirstSegment "Acme" = "Acme" ∧
    extractCompanyName logoDocC5 = some "" :=
  ⟨rfl, by decide, by decide⟩

/-! ## Claim C6 -/

/-- C6 (amended): the Returns resolver takes the first link, in catalog
order, whose href contains "return" or "refund" or whose visible text
contains "return", and stops scanning at that link; "refund" in the
visible text alone does not select a link. -/
theorem returns_policy_first_href_match :
    ∀ (pre post : List LinkEntry) (l : LinkEntry),
      returnsPred l = true → (∀ x ∈ pre, returnsPred x = false) →
      findReturnsPolicy (pre ++ l :: post) = some l.url := by
  intro pre
  induction pre with
  | nil =>
    intro post l hl _
    simp [findReturnsPolicy, firstLinkWhere, hl]
  | cons x xs ih =>
    intro post l hl hpre
    have hx : returnsPred x = false := hpre x (List.mem_cons_self x xs)
    have ihx := ih post l hl (fun y hy => hpre y (List.mem_cons_of_mem x hy))
    simp only [findReturnsPolicy, firstLinkWhere, List.cons_append, hx] at *
    simpa using ihx

theorem returns_policy_first_href_match_witness :
    findReturnsPolicy [plainLink, returnsLink] = some "https://x.test/returns" :=
  returns_policy_first_href_match [plainLink] [] returnsLink (by decide) (by decide)

/-- C6 counterexample: a link whose visible text is exactly "refund"
(and whose href contains neither keyword) is not selected, although the
claim says "refund" in the text alone suffices. -/
theorem C6_counterexample :
    pyIn "refund" refundLink.text = true ∧ findReturnsPolicy [refundLink] = none :=
  ⟨by decide, by decide⟩

/-! ## Claim C2 -/

theorem serviceListStep_nodup (acc : List String) (li : Node) (h : acc.Nodup) :
    (serviceListStep acc li).Nodup := by
  unfold serviceListStep
  split
  · exact pushNew_nodup _ _ h
  · exact h

theorem serviceCardStep_nodup (acc : List String) (dv : Node) (h : acc.Nodup) :
    (serviceCardStep acc dv).Nodup := by
  unfold serviceCardStep
  repeat' split
  all_goals first | exact pushNew_nodup _ _ h | exact h

theorem serviceContainerStep_nodup (acc : List String) (p : List Node × Node) (h : acc.Nodup) :
    (serviceContainerStep acc p).Nodup := by
  unfold serviceContainerStep
  split
  · exact foldl_nodup _ serviceCardStep_nodup _ _
      (foldl_nodup _ (fun acc2 ul h2 => foldl_nodup _ serviceListStep_nodup _ _ h2) _ _ h)
  · exact h

theorem serviceHeadingStep_nodup (acc : List String) (p : List Node × Node) (h : acc.Nodup) :
    (serviceHeadingStep acc p).Nodup := by
  unfold serviceHeadingStep
  split
  · exact serviceContainerStep_nodup _ _ h
  · exact h

theorem extractServices_nodup (doc : Node) : (extractServices doc).Nodup := by
  unfold extractServices
  refine foldl_nodup _ (fun acc m h => ?_) _ _
    (foldl_nodup _ serviceHeadingStep_nodup _ _ List.nodup_nil)
  split
  · exact pushNew_nodup _ _ h
  · exact h

theorem clientImgStep_nodup (acc : List String) (im : Node) (h : acc.Nodup) :
    (clientImgStep acc im).Nodup := by
  unfold clientImgStep
  repeat' split
  all_goals first | exact pushNew_nodup _ _ h | exact h

theorem clientTextStep_nodup (acc : List String) (el : Node) (h : acc.Nodup) :
    (clientTextStep acc el).Nodup := by
  unfold clientTextStep
  split
  · exact pushNew_nodup _ _ h
  · exact h

theorem clientContainerStep_nodup (acc : List String) (p : List Node × Node) (h : acc.Nodup) :
    (clientContainerStep acc p).Nodup := by
  unfold clientContainerStep
  split
  · exact foldl_nodup _ clientTextStep_nodup _ _ (foldl_nodup _ clientImgStep_nodup _ _ h)
  · exact h

theorem clientHeadingStep_nodup (acc : List String) (p : List Node × Node) (h : acc.Nodup) :
    (clientHeadingStep acc p).Nodup := by
  unfold clientHeadingStep
  split
  · exact clientContainerStep_nodup _ _ h
  · exact h

theorem extractClients_nodup (doc : Node) : (extractClients doc).Nodup :=
  foldl_nodup _ clientHeadingStep_nodup _ _ List.nodup_nil

theorem articleStep_nodup (blogUrl : String) (acc : List ArticleEntry) (art : Node)
    (h : acc.Nodup) : (articleStep blogUrl acc art).Nodup := by
  unfold articleStep
  repeat' split
  all_goals first | exact pushNew_nodup _ _ h | exact h

theorem extractArticles_nodup (doc : Node) (blogUrl : String) :
    (extractArticles doc blogUrl).Nodup :=
  foldl_nodup _ (articleStep_nodup blogUrl) _ _ List.nodup_nil

/-- C2: on every run — whatever the fetched pages hold — the services,
clients and articles sequences of the returned profile are free of
duplicates under their equality rules (exact string equality for
services and clients, structural equality of the title/url pair for
articles), because every append is guarded by a membership test. -/
theorem profile_sequences_nodup (url : String)
    (net : String → Except FetchError Response) :
    (scrape_company_profile url net).services.Nodup ∧
    (scrape_company_profile url net).clients.Nodup ∧
    (scrape_company_profile url net).articles.Nodup := by
  unfold scrape_company_profile
  split
  · simp [initProfile]
  · split
    · simp [initProfile]
    · refine ⟨?_, ?_, ?_⟩
      · simpa [runPipeline] using extractServices_nodup _
      · simpa [runPipeline] using extractClients_nodup _
      · show (runPipeline _ _ _ _).articles.Nodup
        unfold runPipeline
        dsimp only
        split
        · simp
        · split
          · simp
          · exact extractArticles_nodup _ _

/-! ## Claim C7 -/

/-- C7 (amended): a secondary fetch that raises a network or timeout
error is non-fatal for that page only — the corresponding enrichment is
skipped, the field stays at its default (description absent, articles
empty), and the run still returns a profile.  The HTTP status of a
secondary response is never inspected, so a non-2xx secondary response
is processed like a success (see the counterexample). -/
theorem secondary_fetch_error_skips_enrichment (url : String)
    (net : String → Except FetchError Response) (r : Response)
    (hok : net url = Except.ok r) (hst : raisesForStatus r.status = false)
    (hab : ∀ au, findAboutPage (collectLinks r.doc r.final_url) = some au →
      ∃ e, net au = Except.error e)
    (hblog : ∀ b bs, blogCandidates (collectLinks r.doc r.final_url) = b :: bs →
      ∃ e, net b = Except.error e) :
    (scrape_company_profile url net).about_us.description = none ∧
    (scrape_company_profile url net).articles = [] := by
  have hred : scrape_company_profile url net = runPipeline url net r.doc r.final_url := by
    unfold scrape_company_profile
    rw [hok]
    show (if raisesForStatus r.status = true then initProfile url
      else runPipeline url net r.doc r.final_url) = _
    rw [hst]
    simp
  rw [hred]
  constructor
  · unfold runPipeline
    dsimp only
    cases hau : findAboutPage (collectLinks r.doc r.final_url) with
    | none => rfl
    | some au =>
      obtain ⟨e, he⟩ := hab au hau
      dsimp only
      rw [he]
  · unfold runPipeline
    dsimp only
    cases hb : blogCandidates (collectLinks r.doc r.final_url) with
    | nil => rfl
    | cons b bs =>
      obtain ⟨e, he⟩ := hblog b bs hb
      dsimp only
      rw [he]

theorem secondary_fetch_error_skips_enrichment_witness :
    (scrape_company_profile "https://acme.test/" netW7).about_us.description = none ∧
    (scrape_company_profile "https://acme.test/" netW7).articles = [] :=
  secondary_fetch_error_skips_enrichment "https://acme.test/" netW7
    { status := 200, final_url := "https://acme.test/", doc := mainDocC7 } rfl (by decide)
    (by intro au hau
        rw [show findAboutPage (collectLinks mainDocC7 "https://acme.test/") =
          some "https://acme.test/about" by decide] at hau
        injection hau with h
        subst h
        exact ⟨FetchError.timedOut, rfl⟩)
    (by intro b bs hb
        rw [show blogCandidates (collectLinks mainDocC7 "https://acme.test/") =
          ["https://acme.test/blog"] by decide] at hb
        injection hb with h1 h2
        subst h1
        exact ⟨FetchError.timedOut, rfl⟩)

/-- C7 counterexample: the about page responds with HTTP status 404 —
a non-2xx status — yet its body is parsed and fills the description,
so a non-2xx secondary response is not "treated as a failure for that
page": the enrichment is not skipped. -/
theorem C7_counterexample :
    netC7 "https://acme.test/about" =
      Except.ok { status := 404, final_url := "https://acme.test/about", doc := aboutDoc404 } ∧
    (scrape_company_profile "https://acme.test/" netC7).about_us.description =
      some "Acme builds reliable industrial automation platforms for factories worldwide." :=
  ⟨rfl, by decide⟩

/-! ## Claim C8 -/

/-- C8 (amended): contact email is the first regex match that does not
contain any blocklist entry as a substring, case-insensitively — a
substring test over the whole email, not a test of the domain part.
The spec's two examples hold: "sales@acme.com" is selected and a sole
"example@example.com" leaves the field absent. -/
theorem email_first_unblocked :
    (∀ t : String, extractEmail t =
      (findEmails t).find? (fun e => !(placeholderDomains.any (fun x => pyIn x (pyLower e))))) ∧
    extractEmail "Contact us at sales@acme.com today" = some "sales@acme.com" ∧
    extractEmail "reach us at example@example.com" = none := by
  refine ⟨fun t => ?_, by decide, by decide⟩
  unfold extractEmail filteredEmails
  exact head?_filter_eq_find? _ _

/-- C8 counterexample: the only regex match is "info@mydomain.com",
whose domain "mydomain.com" is not in the blocklist, so the claim says
it becomes contact.email — but the substring filter of the code drops
it ("domain.com" occurs inside "mydomain.com") and the field stays
absent. -/
theorem C8_counterexample :
    findEmails "reach us at info@mydomain.com now" = ["info@mydomain.com"] ∧
    emailDomain "info@mydomain.com" = "mydomain.com" ∧
    placeholderDomains.contains (emailDomain "info@mydomain.com") = false ∧
    extractEmail "reach us at info@mydomain.com now" = none := by
  refine ⟨by decide, by decide, by decide, by decide⟩

/-! ## Claim C4 -/

/-- The specification-side fold preserves a property of the stored
candidate when the incoming candidate has it. -/
theorem shortStep_invariant (P : LinkEntry → Prop) (acc : Option LinkEntry) (l : LinkEntry)
    (hacc : ∀ c, acc = some c → P c) (hl : P l) :
    ∀ c, shortStep acc l = some c → P c := by
  intro c hc
  cases acc with
  | none =>
    simp only [shortStep] at hc
    cases hc
    exact hl
  | some c0 =>
    simp only [shortStep] at hc
    by_cases hlen : l.href.length < c0.href.length
    · rw [if_pos hlen] at hc
      cases hc
      exact hl
    · rw [if_neg hlen] at hc
      cases hc
      exact hacc _ rfl

/-- Coupled induction: as long as every about-candidate's URL path
equals its raw href, the code's fold (candidate href length against the
stored URL's path length) moves in lockstep with the href-against-href
fold of the specification. -/
theorem aboutFold_coupled :
    ∀ (links : List LinkEntry) (acc : Option LinkEntry),
      (∀ l ∈ links, aboutPred l = true → urlparsePath l.url = l.href) →
      (∀ c, acc = some c → urlparsePath c.url = c.href) →
      links.foldl aboutStep (acc.map (fun l => l.url)) =
        ((links.filter aboutPred).foldl shortStep acc).map (fun l => l.url) := by
  intro links
  induction links with
  | nil => intro acc _ _; rfl
  | cons l ls ih =>
    intro acc hp hacc
    by_cases hl : aboutPred l = true
    · rw [List.filter_cons_of_pos hl]
      simp only [List.foldl_cons]
      have hstep : aboutStep (acc.map (fun x => x.url)) l =
          (shortStep acc l).map (fun x => x.url) := by
        cases acc with
        | none => simp [aboutStep, shortStep, hl]
        | some c =>
          have hc := hacc c rfl
          by_cases hlen : l.href.length < c.href.length
          · simp [aboutStep, shortStep, hl, hc, hlen]
          · simp [aboutStep, shortStep, hl, hc, hlen]
      rw [hstep]
      exact ih (shortStep acc l) (fun x hx hax => hp x (List.mem_cons_of_mem _ hx) hax)
        (shortStep_invariant _ acc l hacc (hp l (List.mem_cons_self _ _) hl))
    · have hl2 : aboutPred l = false := by
        cases h2 : aboutPred l
        · rfl
        · exact absurd h2 hl
      rw [List.filter_cons_of_neg (by simp [hl2])]
      simp only [List.foldl_cons]
      have hskip : aboutStep (acc.map (fun x => x.url)) l = acc.map (fun x => x.url) := by
        simp [aboutStep, hl2]
      rw [hskip]
      exact ih acc (fun x hx hax => hp x (List.mem_cons_of_mem _ hx) hax) hacc

/-- C4 (amended): the About resolver scans the whole catalog, but it
compares the candidate's full raw href length against the path length of
the currently stored absolute URL.  When every about-candidate's URL
path equals its raw href (root-relative hrefs without query or
fragment), this selects the first candidate of minimal href length — in
particular `/about` over `/about-us/our-story`; with mixed absolute and
relative hrefs the selected candidate need not have the shortest path
(see the counterexample). -/
theorem about_resolver_shortest_under_path_eq (links : List LinkEntry)
    (h : ∀ l ∈ links, aboutPred l = true → urlparsePath l.url = l.href) :
    findAboutPage links =
      (firstShortestHref (links.filter aboutPred)).map (fun l => l.url) := by
  have hrun := aboutFold_coupled links none h (by intro c hc; cases hc)
  simpa [findAboutPage, firstShortestHref] using hrun

theorem about_resolver_shortest_under_path_eq_witness :
    findAboutPage aboutCat = some "https://x.test/about" := by
  have h := about_resolver_shortest_under_path_eq aboutCat (by decide)
  exact h.trans (by decide)

/-- C4 counterexample: with an absolute-href candidate the comparison is
href length against stored path length, so the resolver keeps the stored
`/about-us/x` URL (path length 11) even though the catalog holds a
candidate whose path `/about` has only 6 characters — the selected
candidate does not have the fewest path characters. -/
theorem C4_counterexample :
    (collectLinks aboutDocC4 "https://x.test/").map (fun l => l.href) =
      ["/about-us/x", "https://x.test/about"] ∧
    findAboutPage (collectLinks aboutDocC4 "https://x.test/") =
      some "https://x.test/about-us/x" ∧
    (urlparsePath "https://x.test/about").length <
      (urlparsePath "https://x.test/about-us/x").length := by
  refine ⟨by decide, by decide, by decide⟩

/-! ## Claim C9 -/

/-- The heading loop of the process extractor only acts on headings
whose text matches the process keywords. -/
theorem foldl_processHeadingStep_filter :
    ∀ (l : List (List Node × Node)) (init : List ProcessStep),
      l.foldl processHeadingStep init =
        (l.filter (fun p => processKeywords.any (fun k => pyIn k (headingText p.2)))).foldl
          processContainerStep init := by
  intro l
  induction l with
  | nil => intro init; rfl
  | cons x xs ih =>
    intro init
    by_cases hx : (processKeywords.any (fun k => pyIn k (headingText x.2))) = true
    · have hfil : ((x :: xs).filter
          (fun p => processKeywords.any (fun k => pyIn k (headingText p.2)))) =
          x :: xs.filter (fun p => processKeywords.any (fun k => pyIn k (headingText p.2))) :=
        List.filter_cons_of_pos hx
      rw [hfil]
      simp only [List.foldl_cons]
      rw [show processHeadingStep init x = processContainerStep init x by
        simp [processHeadingStep, hx]]
      exact ih _
    · have hx2 : (processKeywords.any (fun k => pyIn k (headingText x.2))) = false := by
        cases h2 : processKeywords.any (fun k => pyIn k (headingText x.2))
        · rfl
        · exact absurd h2 hx
      have hfil : ((x :: xs).filter
          (fun p => processKeywords.any (fun k => pyIn k (headingText p.2)))) =
          xs.filter (fun p => processKeywords.any (fun k => pyIn k (headingText p.2))) :=
        List.filter_cons_of_neg (by simp [hx2])
      rw [hfil]
      simp only [List.foldl_cons]
      rw [show processHeadingStep init x = init by simp [processHeadingStep, hx2]]
      exact ih _

/-- When every enumerated list item is longer than 5 characters, the
item fold appends them all, keeping the enumerate indices. -/
theorem processItemsFold :
    ∀ (l : List (Nat × Node)) (acc : List ProcessStep),
      (∀ q ∈ l, 5 < (Node.getTextStrip q.2).length) →
      l.foldl processItemStep acc =
        acc ++ l.map (fun q => ⟨q.1 + 1, Node.getTextStrip q.2⟩) := by
  intro l
  induction l with
  | nil => intro acc _; simp
  | cons q qs ih =>
    intro acc hall
    have hq := hall q (List.mem_cons_self _ _)
    have hne : Node.getTextStrip q.2 ≠ "" := by
      intro h0
      rw [h0] at hq
      exact absurd hq (by decide)
    simp only [List.foldl_cons]
    rw [show processItemStep acc q = acc ++ [⟨q.1 + 1, Node.getTextStrip q.2⟩] by
      simp [processItemStep, hne, hq]]
    rw [ih _ (fun x hx => hall x (List.mem_cons_of_mem _ hx))]
    simp

/-- When no enumerated step div qualifies, the div fold leaves the
accumulated steps unchanged. -/
theorem processDivStep_keep (base : Nat) :
    ∀ (l : List (Nat × Node)) (acc : List ProcessStep),
      (∀ q ∈ l, stepDivQualifies q.2 = false) →
      l.foldl (processDivStep base) acc = acc := by
  intro l
  induction l with
  | nil => intro acc _; rfl
  | cons q qs ih =>
    intro acc hall
    have hq := hall q (List.mem_cons_self _ _)
    simp only [List.foldl_cons]
    rw [show processDivStep base acc q = acc by simp [processDivStep, hq]]
    exact ih _ (fun x hx => hall x (List.mem_cons_of_mem _ hx))

theorem snd_mem_of_mem_enumFrom {α : Type} :
    ∀ (l : List α) (n : Nat) (q : Nat × α), q ∈ l.enumFrom n → q.2 ∈ l := by
  intro l
  induction l with
  | nil => intro n q hq; simp [List.enumFrom] at hq
  | cons x xs ih =>
    intro n q hq
    simp only [List.enumFrom, List.mem_cons] at hq
    rcases hq with h | h
    · rw [h]
      exact List.mem_cons_self _ _
    · exact List.mem_cons_of_mem _ (ih (n + 1) q h)

theorem enumFrom_map_fst_add_one {α : Type} :
    ∀ (l : List α) (n : Nat),
      (l.enumFrom n).map (fun q => q.1 + 1) = List.range' (n + 1) l.length := by
  intro l
  induction l with
  | nil => intro n; rfl
  | cons x xs ih =>
    intro n
    simp only [List.enumFrom, List.map_cons, List.length_cons]
    rw [ih (n + 1)]
    rfl

/-- C9: when a process-keyword heading's container holds exactly one
ordered list whose items are all longer than 5 characters, no step div
qualifies, and no other heading matches the process keywords, the items
become the process steps in list order, numbered 1..N. -/
theorem process_steps_numbered_sequentially (doc : Node) (anc : List Node)
    (h c ol : Node)
    (hheads : ((docElems doc).filter (fun p => hTags.contains p.2.tag)).filter
        (fun p => processKeywords.any (fun k => pyIn k (headingText p.2))) = [(anc, h)])
    (hpar : findParentTag anc containerTags = some c)
    (hols : (Node.descendants c).filter (fun n => n.tag == "ol") = [ol])
    (hitems : ∀ li ∈ (Node.descendants ol).filter (fun n => n.tag == "li"),
        5 < (Node.getTextStrip li).length)
    (hdivs : ∀ dv ∈ stepDivs c, stepDivQualifies dv = false) :
    extractProcess doc =
      ((Node.descendants ol).filter (fun n => n.tag == "li")).enum.map
        (fun q => ⟨q.1 + 1, Node.getTextStrip q.2⟩) ∧
    (extractProcess doc).map (fun s => s.step) =
      List.range' 1 ((Node.descendants ol).filter (fun n => n.tag == "li")).length := by
  have h1 : extractProcess doc =
      ((Node.descendants ol).filter (fun n => n.tag == "li")).enum.map
        (fun q => (⟨q.1 + 1, Node.getTextStrip q.2⟩ : ProcessStep)) := by
    unfold extractProcess
    rw [foldl_processHeadingStep_filter, hheads]
    simp only [List.foldl_cons, List.foldl_nil]
    unfold processContainerStep
    rw [hpar]
    dsimp only
    unfold processPartA processPartB
    rw [hols]
    simp only [List.foldl_cons, List.foldl_nil, List.enum]
    rw [processItemsFold _ _ (fun q hq => hitems q.2 (snd_mem_of_mem_enumFrom _ 0 q hq))]
    rw [processDivStep_keep _ _ _ (fun q hq => hdivs q.2 (snd_mem_of_mem_enumFrom _ 0 q hq))]
    simp [List.enum]
  refine ⟨h1, ?_⟩
  rw [h1, List.map_map]
  simpa [List.enum, Function.comp] using enumFrom_map_fst_add_one
    ((Node.descendants ol).filter (fun n => n.tag == "li")) 0

theorem process_steps_numbered_sequentially_witness :
    extractProcess procDoc =
      [⟨1, "Discover needs"⟩, ⟨2, "Design system"⟩, ⟨3, "Deliver product"⟩] := by
  have h := (process_steps_numbered_sequentially procDoc [procContainer, procDoc]
    procHeading procContainer procOl rfl rfl rfl (by decide) (by decide)).1
  exact h.trans (by decide)
